import Mathlib

set_option maxHeartbeats 1000000

unseal Rat.add Rat.mul Rat.inv Rat.sub

/-!
Verification of the Holt-Winters forecasting engine of the `forecast` package
(dataframe-go).  The Go source is shallowly embedded: `float64` values are
idealized as exact rationals (`ℚ`), Go slices become `List Value`, fallible
operations return `Option`/`Except`, a runtime panic (out-of-bounds index,
integer modulo by zero) is a distinguished outcome, and mutation of a model's
fields is made explicit by threading the record through each assignment, so
that the receiver's state at an early `return nil, err` is observable.
The per-call cancellation signal of a `context.Context` is modelled as a
Boolean that is read at every `ctx.Err()` site (`false` = never cancelled).
-/

/-- Exact-rational idealization of Go `float64`. -/
abbrev Value := ℚ

/-- Model of `dataframe.SeriesFloat64`: a named ordered sequence of values. -/
structure SeriesFloat64 where
  name : String
  Values : List Value
deriving DecidableEq

/-- Model of the `dataframe.NewSeriesFloat64` constructor. -/
def NewSeriesFloat64 (name : String) (vals : List Value) : SeriesFloat64 :=
  { name := name, Values := vals }

/-- The distinct error values the embedded code can return. -/
inductive Err where
  | invalidRange
  | noValues
  | alphaRange
  | betaRange
  | gammaRange
  | testMin3
  | testMin2
  | cancelled
  | lenMismatch
  | hMin
  | dateTime
  | unsupportedInterval
deriving DecidableEq

/-- Outcome of a Go computation that does not mutate caller-visible state:
normal return, error return, or runtime panic. -/
inductive Outcome (δ : Type) where
  | ok (a : δ)
  | error (e : Err)
  | panics
deriving DecidableEq

/-- Outcome of a Go method on a receiver of type `σ`: on an error return the
receiver's (possibly partially mutated) state `s` is still observable; a panic
aborts the process so no state is recorded. -/
inductive GoRes (σ : Type) (δ : Type) where
  | ok (a : δ)
  | error (s : σ) (e : Err)
  | panics
deriving DecidableEq

/-- True exactly on a normal return. -/
def GoRes.isOk {σ δ : Type} : GoRes σ δ → Bool
  | .ok _ => true
  | _ => false

/-- True exactly on an error return. -/
def GoRes.isError {σ δ : Type} : GoRes σ δ → Bool
  | .error _ _ => true
  | _ => false

/-- Go slice expression `xs[a:b]`: panics (`none`) unless `a ≤ b ≤ len xs`. -/
def goSlice (xs : List Value) (a b : Nat) : Option (List Value) :=
  if a ≤ b ∧ b ≤ xs.length then some ((xs.drop a).take (b - a)) else none

/-- Go index expression `xs[i]`: panics (`none`) when out of bounds. -/
def goGet (xs : List Value) (i : Nat) : Option Value :=
  xs[i]?

/-- Go integer remainder `a % b`: panics (`none`) when `b = 0`. -/
def gomod (a b : Nat) : Option Nat :=
  if b = 0 then none else some (a % b)

/-- Model of `dataframe.Range`: optional start/end indices. -/
structure GoRange where
  Start : Option Nat := none
  End : Option Nat := none

/-- Modelled from the spec: `Range.Limits` (container-library code of this
repository, not under src/) resolves a range over a sequence of length `n` to
an inclusive `[start, end]` window, `Start` defaulting to index 0 and `End` to
`n - 1`; an empty sequence or an out-of-bounds bound is a validation error. -/
def GoRange.Limits (r : GoRange) (n : Nat) : Except Err (Nat × Nat) :=
  if n = 0 then .error .invalidRange
  else
    let s := r.Start.getD 0
    let e := r.End.getD (n - 1)
    if s < n ∧ e < n then .ok (s, e) else .error .invalidRange

/-- Modelled from the spec: the Initial-State Estimator's per-slot seasonal
components (`initialSeasonalComponents` is code of this repository that is not
under src/).  One value per seasonal slot: the average, across the complete
cycles in `y`, of the deviation of that slot's observation from its cycle's
mean.  The estimator fails when `y` holds fewer than two complete cycles; a Go
function without an error return fails by panicking, modelled as `none`. -/
def initialSeasonalComponents (y : List Value) (period : Nat) : Option (List Value) :=
  if y.length < 2 * period ∨ period = 0 then none
  else
    let nCycles := y.length / period
    let cycleMean : Nat → Value := fun j =>
      (((List.range period).map fun t => y.getD (j * period + t) 0).sum) / (period : Value)
    some ((List.range period).map fun s =>
      (((List.range nCycles).map fun j => y.getD (j * period + s) 0 - cycleMean j).sum)
        / (nCycles : Value))

/-- Modelled from the spec: the Initial-State Estimator's starting trend
(`initialTrend` is code of this repository that is not under src/): the
average of `(y[i+period] - y[i]) / period` over the first two full cycles;
fails (panics, `none`) when fewer than two complete cycles exist. -/
def initialTrend (y : List Value) (period : Nat) : Option Value :=
  if y.length < 2 * period ∨ period = 0 then none
  else some ((((List.range period).map fun i =>
    (y.getD (period + i) 0 - y.getD i 0) / (period : Value)).sum) / (period : Value))

/-- Alias for the `initialTrend` estimator, needed where the `HwModel`
namespace would otherwise resolve the name to the struct field. -/
def initialTrendEst : List Value → Nat → Option Value := initialTrend

/-- Modelled from the spec: `MeanAbsoluteError` (accuracy-metric code of this
repository, not under src/): mean of `|actual[i] - forecast[i]|`; fails on a
length mismatch, and checks the cancellation signal between per-element
accumulations (so an already-cancelled signal aborts any non-empty sum). -/
def MeanAbsoluteError (ctx : Bool) (actual forecast : SeriesFloat64) : Except Err Value :=
  if actual.Values.length ≠ forecast.Values.length then .error .lenMismatch
  else if ctx ∧ actual.Values.length ≠ 0 then .error .cancelled
  else .ok ((((actual.Values.zip forecast.Values).map fun p => |p.1 - p.2|).sum)
    / (actual.Values.length : Value))

/-- Modelled from the spec: `SumOfSquaredErrors` (not under src/): sum of
squared errors, same failure behaviour as the other metrics. -/
def SumOfSquaredErrors (ctx : Bool) (actual forecast : SeriesFloat64) : Except Err Value :=
  if actual.Values.length ≠ forecast.Values.length then .error .lenMismatch
  else if ctx ∧ actual.Values.length ≠ 0 then .error .cancelled
  else .ok (((actual.Values.zip forecast.Values).map fun p => (p.1 - p.2) ^ 2).sum)

/-- Modelled from the spec: `RootMeanSquaredError` (not under src/) is the
square root of the mean of squared errors.  In this exact-rational embedding
the square root is in general irrational, so the stored score is modelled as
the mean of squared errors itself; no claim refers to the numeric value, only
to the metric's success/failure behaviour (length mismatch, cancellation),
which is modelled faithfully. -/
def RootMeanSquaredError (ctx : Bool) (actual forecast : SeriesFloat64) : Except Err Value :=
  if actual.Values.length ≠ forecast.Values.length then .error .lenMismatch
  else if ctx ∧ actual.Values.length ≠ 0 then .error .cancelled
  else .ok ((((actual.Values.zip forecast.Values).map fun p => (p.1 - p.2) ^ 2).sum)
    / (actual.Values.length : Value))

/-- Modelled from the spec: `MeanAbsolutePercentageError` (not under src/):
mean of `|actual[i] - forecast[i]| / |actual[i]|`, same failure behaviour. -/
def MeanAbsolutePercentageError (ctx : Bool) (actual forecast : SeriesFloat64) :
    Except Err Value :=
  if actual.Values.length ≠ forecast.Values.length then .error .lenMismatch
  else if ctx ∧ actual.Values.length ≠ 0 then .error .cancelled
  else .ok ((((actual.Values.zip forecast.Values).map fun p => |p.1 - p.2| / |p.1|).sum)
    / (actual.Values.length : Value))

/-- Model of the `HwModel` struct: the Holt-Winters engine's state. -/
structure HwModel where
  data : SeriesFloat64
  trainData : SeriesFloat64
  testData : SeriesFloat64
  fcastData : SeriesFloat64
  initialSmooth : Value
  initialTrend : Value
  initialSeasonalComps : List Value
  smoothingLevel : Value
  trendLevel : Value
  seasonalComps : List Value
  period : Nat
  alpha : Value
  beta : Value
  gamma : Value
  mae : Value
  sse : Value
  rmse : Value
  mape : Value
deriving DecidableEq

/-- Model of the `HoltWinters` constructor: a zero-valued model bound to `s`. -/
def HoltWinters (s : SeriesFloat64) : HwModel :=
  { data := s
    trainData := { name := "", Values := [] }
    testData := { name := "", Values := [] }
    fcastData := { name := "", Values := [] }
    initialSmooth := 0
    initialTrend := 0
    initialSeasonalComps := []
    smoothingLevel := 0
    trendLevel := 0
    seasonalComps := []
    period := 0
    alpha := 0
    beta := 0
    gamma := 0
    mae := 0
    sse := 0
    rmse := 0
    mape := 0 }

/-- The training recursion of `HwModel.Fit` (source lines 125-152), iterating
the listed indices `i` over the slice `y = data[start:end+1]`.  At `i = start`
the level is seeded from `y[i]` and recorded in the receiver's
`initialSmooth`; at every later index the additive level/trend/seasonal
updates run.  The source indexes `y` with the absolute loop index `i`, which
this embedding reproduces exactly (`goGet y i`). -/
def hwLoopGo (ctx : Bool) (α β γ : Value) (period : Nat) (y : List Value) (start : Nat) :
    List Nat → Value → Value → List Value → HwModel →
    GoRes HwModel (Value × Value × List Value × HwModel)
  | [], st, trnd, seasonals, hm => .ok (st, trnd, seasonals, hm)
  | i :: rest, st, trnd, seasonals, hm =>
    if ctx then .error hm .cancelled
    else
      match goGet y i with
      | none => .panics
      | some xt =>
        if i = start then
          hwLoopGo ctx α β γ period y start rest xt trnd seasonals
            { hm with initialSmooth := xt }
        else
          match gomod i period with
          | none => .panics
          | some im =>
            match goGet seasonals im with
            | none => .panics
            | some sIm =>
              let st1 := α * (xt - sIm) + (1 - α) * (st + trnd)
              let trnd1 := β * (st1 - st) + (1 - β) * trnd
              let seasonals1 := seasonals.set im (γ * (xt - st - trnd) + (1 - γ) * sIm)
              hwLoopGo ctx α β γ period y start rest st1 trnd1 seasonals1 hm

/-- The test-window forecast loop of `HwModel.Fit` (source lines 154-168):
`cnt` remaining steps, appending `(st + m*trnd) + seasonals[(m-1) % period]`
for `m = 1, 2, ...`; checks the cancellation signal each step. -/
def hwFcastGo (ctx : Bool) (period : Nat) (st trnd : Value) (seasonals : List Value)
    (hm : HwModel) : Nat → Nat → List Value → GoRes HwModel (List Value)
  | 0, _, fcast => .ok fcast
  | cnt + 1, m, fcast =>
    if ctx then .error hm .cancelled
    else
      match gomod (m - 1) period with
      | none => .panics
      | some im =>
        match goGet seasonals im with
        | none => .panics
        | some sIm =>
          hwFcastGo ctx period st trnd seasonals hm cnt (m + 1)
            (fcast ++ [st + (m : Value) * trnd + sIm])

/-- Validation and train/test split of `HwModel.Fit` (source lines 67-111):
range resolution, the empty-range and `[0,1]`-parameter checks, the train
slice assignment, the minimum-3-test-observations check, and the
test-slice/parameter field assignments, in source order.  Note that
`trainData` is assigned to the receiver before the held-out-window check. -/
def HwModel.FitValidate (hm : HwModel) (α β γ : Value) (r : List GoRange) :
    GoRes HwModel (Nat × Nat × HwModel) :=
  match (r.headD {}).Limits hm.data.Values.length with
  | .error e => .error hm e
  | .ok (start, end_) =>
    if end_ < start + 1 then .error hm .noValues
    else if α < 0 ∨ 1 < α then .error hm .alphaRange
    else if β < 0 ∨ 1 < β then .error hm .betaRange
    else if γ < 0 ∨ 1 < γ then .error hm .gammaRange
    else
      match goSlice hm.data.Values start (end_ + 1) with
      | none => .panics
      | some trainData =>
        let hm1 := { hm with trainData := NewSeriesFloat64 "Train Data" trainData }
        match goSlice hm1.data.Values (end_ + 1) hm1.data.Values.length with
        | none => .panics
        | some testData =>
          if testData.length < 3 then .error hm1 .testMin3
          else
            let hm2 := { hm1 with
              testData := { name := "Test Data", Values := testData }
              alpha := α, beta := β, gamma := γ }
            .ok (start, end_, hm2)

/-- Training phase of `HwModel.Fit` (source lines 113-152): re-slice `y`,
derive and record the initial seasonal components and initial trend, then run
the recursion over `i = start, ..., end`.  The source calls
`initialSeasonalComponents` twice, producing two independent arrays with the
same value; in this pure embedding both occurrences are the same value. -/
def HwModel.FitTrain (hm : HwModel) (ctx : Bool) (α β γ : Value) (period : Nat)
    (start end_ : Nat) : GoRes HwModel (Value × Value × List Value × HwModel) :=
  match goSlice hm.data.Values start (end_ + 1) with
  | none => .panics
  | some y =>
    match initialSeasonalComponents y period with
    | none => .panics
    | some seasonals =>
      let hm1 := { hm with initialSeasonalComps := seasonals }
      match initialTrendEst y period with
      | none => .panics
      | some trnd0 =>
        let hm2 := { hm1 with initialTrend := trnd0 }
        hwLoopGo ctx α β γ period y start (List.range' start (end_ + 1 - start))
          0 trnd0 seasonals hm2

/-- Final phase of `HwModel.Fit` (source lines 154-207): test-window forecast,
assignment of the final state fields, and the four accuracy metrics, with
each metric error propagated after earlier assignments took effect. -/
def HwModel.FitFinish (hm : HwModel) (ctx : Bool) (period : Nat) (end_ : Nat)
    (st trnd : Value) (seasonals : List Value) : GoRes HwModel HwModel :=
  match hwFcastGo ctx period st trnd seasonals hm
      (hm.data.Values.length - (end_ + 1)) 1 [] with
  | .panics => .panics
  | .error s e => .error s e
  | .ok fcast =>
    let fcastSeries : SeriesFloat64 := { name := "Forecast Data", Values := fcast }
    let hm1 := { hm with
      fcastData := fcastSeries
      smoothingLevel := st, trendLevel := trnd
      period := period, seasonalComps := seasonals }
    match MeanAbsoluteError ctx hm1.testData fcastSeries with
    | .error e => .error hm1 e
    | .ok mae =>
      match SumOfSquaredErrors ctx hm1.testData fcastSeries with
      | .error e => .error hm1 e
      | .ok sse =>
        match RootMeanSquaredError ctx hm1.testData fcastSeries with
        | .error e => .error hm1 e
        | .ok rmse =>
          match MeanAbsolutePercentageError ctx hm1.testData fcastSeries with
          | .error e => .error hm1 e
          | .ok mape =>
            .ok { hm1 with sse := sse, mae := mae, rmse := rmse, mape := mape }

/-- Model of `HwModel.Fit` (source lines 67-208): validation and split,
training recursion, then test-window forecast and accuracy scoring. -/
def HwModel.Fit (hm : HwModel) (ctx : Bool) (α β γ : Value) (period : Nat)
    (r : List GoRange) : GoRes HwModel HwModel :=
  match hm.FitValidate α β γ r with
  | .panics => .panics
  | .error s e => .error s e
  | .ok (start, end_, hm1) =>
    match hm1.FitTrain ctx α β γ period start end_ with
    | .panics => .panics
    | .error s e => .error s e
    | .ok (st, trnd, seasonals, hm2) =>
      hm2.FitFinish ctx period end_ st trnd seasonals

/-- The forecast loop of `HwModel.Predict` (source lines 226-239): `cnt`
remaining steps, appending `(st + m*trnd) + seasonals[(m-1) % period]` for
`m = 1, 2, ...`, checking the cancellation signal each step. -/
def hwPredictLoop (ctx : Bool) (st trnd : Value) (seasonals : List Value) (period : Nat) :
    Nat → Nat → List Value → Outcome (List Value)
  | 0, _, forecast => .ok forecast
  | cnt + 1, m, forecast =>
    if ctx then .error .cancelled
    else
      match gomod (m - 1) period with
      | none => .panics
      | some im =>
        match goGet seasonals im with
        | none => .panics
        | some sIm =>
          hwPredictLoop ctx st trnd seasonals period cnt (m + 1)
            (forecast ++ [st + (m : Value) * trnd + sIm])

/-- Model of `HwModel.Predict` (source lines 212-245): rejects `h ≤ 0`, then
reads `smoothingLevel`, `trendLevel`, `seasonalComps` and `period` from the
model (the source contains no write to any model field) and rolls the additive
forecast formula forward `h` steps. -/
def HwModel.Predict (hm : HwModel) (ctx : Bool) (h : Int) : Outcome SeriesFloat64 :=
  if h ≤ 0 then .error .hMin
  else
    match hwPredictLoop ctx hm.smoothingLevel hm.trendLevel hm.seasonalComps hm.period
        h.toNat 1 [] with
    | .panics => .panics
    | .error e => .error e
    | .ok forecast => .ok { name := "Prediction", Values := forecast }

/-- Model of a `dataframe.DataFrame` holding a datetime column and a value
column (the shape `HumanForecast` documents), with possibly-missing cells;
timestamps are idealized as integers. -/
structure DataFrame where
  times : List (Option Int)
  vals : List (Option Value)
deriving DecidableEq

/-- Model of `DataFrame.NRows`: the number of rows. -/
def DataFrame.NRows (d : DataFrame) : Nat := d.times.length

/-- Modelled from the spec: `DataFrame.Copy` over an inclusive `[start, end]`
range (container-library code of this repository, not under src/). -/
def DataFrame.copyRange (d : DataFrame) (start end_ : Nat) : DataFrame :=
  { times := (d.times.drop start).take (end_ + 1 - start)
    vals := (d.vals.drop start).take (end_ + 1 - start) }

/-- Modelled from the spec: `DataFrame.Copy` from `start` to the end of the
data ("everything strictly after end" when `start = end + 1`). -/
def DataFrame.copyFrom (d : DataFrame) (start : Nat) : DataFrame :=
  { times := d.times.drop start, vals := d.vals.drop start }

/-- Modelled from the spec: `getDateTime` (code of this repository not under
src/) reads the datetime cell of row `i`; a missing row or missing cell is an
error (`none`). -/
def getDateTime (d : DataFrame) (i : Nat) : Option Int :=
  (d.times[i]?).bind id

/-- Model of the `HfModel` struct of the human-interval variant. -/
structure HfModel where
  data : DataFrame
  testData : DataFrame
  fcastData : DataFrame
  smoothingLevel : Value
  trendLevel : Value
  startDate : Option Int
  endDate : Option Int
  period : Int
  interval : Int
  alpha : Value
  beta : Value
  mae : Value
  sse : Value
  rmse : Value
  mape : Value
deriving DecidableEq

/-- Model of `HumanForecastOptions`. -/
structure HumanForecastOptions where
  Interval : Int := 0
deriving DecidableEq

/-- Model of the `HumanForecast` constructor (zero-valued model, interval
defaulted to `Daily`, bound to `d`). -/
def HumanForecast (d : DataFrame) : HfModel :=
  { data := d
    testData := { times := [], vals := [] }
    fcastData := { times := [], vals := [] }
    smoothingLevel := 0
    trendLevel := 0
    startDate := none
    endDate := none
    period := 0
    interval := 1
    alpha := 0
    beta := 0
    mae := 0
    sse := 0
    rmse := 0
    mape := 0 }

/-- Modelled from the spec: the calendar-bucket splitter that occupies the
rest of `HfModel.Fit` (source lines 143-366) is explicitly excluded from the
core's contract ("unfinished/exploratory ... excluded entirely").  It is
modelled only to the extent the claims need: it checks the cancellation
signal, records the per-interval period (an hour, a day or a week in
nanoseconds), and errors on an unsupported interval; no claim depends on the
split itself. -/
def hfSplit (hf : HfModel) (ctx : Bool) (interval : Int) : GoRes HfModel HfModel :=
  if interval = 0 then
    if ctx then .error hf .cancelled else .ok { hf with period := 3600000000000 }
  else if interval = 1 then
    if ctx then .error hf .cancelled else .ok { hf with period := 86400000000000 }
  else if interval = 2 then
    if ctx then .error hf .cancelled else .ok { hf with period := 604800000000000 }
  else .error hf .unsupportedInterval

/-- Model of `HfModel.Fit` (source lines 83-368): the interval is recorded
before any validation; then range resolution, the empty-range and
`[0,1]`-parameter checks, the parameter assignments, the train copy, the
start/end datetime reads, the minimum-2-test-observations check and the
test-data assignment, in source order; the remaining calendar splitter is the
spec-modelled `hfSplit`.  As in the source, `getDateTime` is called on the
train copy with the absolute indices `start` and `end`. -/
def HfModel.Fit (hf : HfModel) (ctx : Bool) (α β : Value) (r : GoRange)
    (options : List HumanForecastOptions) : GoRes HfModel HfModel :=
  let interval : Int := match options with | [] => 0 | o :: _ => o.Interval
  let hf0 := { hf with interval := interval }
  match r.Limits hf0.data.NRows with
  | .error e => .error hf0 e
  | .ok (start, end_) =>
    if end_ < start + 1 then .error hf0 .noValues
    else if α < 0 ∨ 1 < α then .error hf0 .alphaRange
    else if β < 0 ∨ 1 < β then .error hf0 .betaRange
    else
      let hf1 := { hf0 with alpha := α, beta := β }
      let trainData := hf1.data.copyRange start end_
      match getDateTime trainData start with
      | none => .error hf1 .dateTime
      | some startDate =>
        match getDateTime trainData end_ with
        | none => .error hf1 .dateTime
        | some endDate =>
          let hf2 := { hf1 with startDate := some startDate, endDate := some endDate }
          let testData := hf2.data.copyFrom (end_ + 1)
          if testData.NRows < 2 then .error hf2 .testMin2
          else
            let hf3 := { hf2 with testData := testData }
            hfSplit hf3 ctx interval

/-- Model of `HwModel.Summary` (source lines 249-287): the summary only reads
model fields and prints them; its observable numeric content is the tuple of
fields it renders.  It performs no mutation, which the pure signature makes
structural. -/
def HwModel.Summary (hm : HwModel) :
    (Value × Value × Value × Nat) × (Value × Value × Value × Value) ×
    (List Value × List Value) × (Value × Value × Value × Value) ×
    SeriesFloat64 × SeriesFloat64 :=
  ((hm.alpha, hm.beta, hm.gamma, hm.period),
   (hm.initialSmooth, hm.initialTrend, hm.smoothingLevel, hm.trendLevel),
   (hm.initialSeasonalComps, hm.seasonalComps),
   (hm.mae, hm.sse, hm.rmse, hm.mape),
   hm.testData, hm.fcastData)

/-! ### Helper lemmas about the primitive operations -/

/-- The Holt-Winters per-step recurrence exactly as the spec writes it: the
`(level, trend, seasonal)` state after processing training indices `0 .. i`,
seeded at index 0 with `level = y[0]` and the estimator's `trnd0`/`seas0`;
for `i > 0` the additive update equations of spec section 4.3. -/
def hwSpec (α β γ : Value) (period : Nat) (y : List Value) (trnd0 : Value)
    (seas0 : List Value) : Nat → Value × Value × List Value
  | 0 => (y.getD 0 0, trnd0, seas0)
  | i + 1 =>
    let p := hwSpec α β γ period y trnd0 seas0 i
    let xt := y.getD (i + 1) 0
    let idx := (i + 1) % period
    let s := p.2.2.getD idx 0
    let lvl1 := α * (xt - s) + (1 - α) * (p.1 + p.2.1)
    let tr1 := β * (lvl1 - p.1) + (1 - β) * p.2.1
    (lvl1, tr1, p.2.2.set idx (γ * (xt - p.1 - p.2.1) + (1 - γ) * s))

/-- Fresh model bound to a three-observation series: the training range
defaults to the whole series, so the held-out window is empty. -/
def c1Before : HwModel := HoltWinters { name := "data", Values := [1, 2, 3] }

/-- The state `c1Before` is left in by the failing Fit call below: its
`trainData` field has already been overwritten. -/
def c1After : HwModel :=
  { c1Before with trainData := NewSeriesFloat64 "Train Data" [1, 2, 3] }

/-- Model used to instantiate the amended claim C1 at a concrete input. -/
def c1wModel : HwModel := HoltWinters { name := "w", Values := [1, 2, 3] }

/-- Model with eight observations used to exhibit the absolute-index slicing
bug: the training range `[1, 3]` is valid, its slice has three observations
(enough for two full cycles of `period = 1`), and four observations are held
out, yet Fit runs off the end of the local slice `y = data[1:4]` because the
loop reads `y[i]` with the absolute index `i`. -/
def c2Model : HwModel :=
  HoltWinters { name := "data", Values := [0, 1, 2, 3, 4, 5, 6, 7] }

/-- Fresh, never-fitted model for the Predict-before-Fit scenario. -/
def c3Model : HwModel := HoltWinters { name := "data", Values := [1, 2, 3] }

/-- Concrete series for the C5 witness. -/
def c5Model : HwModel := HoltWinters { name := "w", Values := [2, 4, 6, 8, 10] }

/-- The model c5Model is fitted to, extracted from the Fit computation. -/
def c5Fitted : HwModel :=
  match HwModel.Fit c5Model false 0 0 0 1 [{ End := some 1 }] with
  | .ok m => m
  | _ => c5Model

/-- Concrete series for the C6 witness. -/
def c6Model : HwModel :=
  HoltWinters { name := "w", Values := [3, 1, 4, 1, 5, 9, 2, 6, 5, 3] }

/-- The model c6Model is fitted to, extracted from the Fit computation. -/
def c6Fitted : HwModel :=
  match HwModel.Fit c6Model false (1/4) (1/3) (1/2) 2 [{ End := some 5 }] with
  | .ok m => m
  | _ => c6Model

/-- Concrete series for the C7 boundary cases: train `[1, 2]`, test `[3, 4, 5]`. -/
def c7Model : HwModel := HoltWinters { name := "w", Values := [1, 2, 3, 4, 5] }

/-- Model used to instantiate the out-of-range half of claim C7. -/
def c7wModel : HwModel := HoltWinters { name := "w", Values := [1, 2, 3] }

/-- Concrete series for the C8 success-at-exactly-3 case: train `[1, 2]`,
held-out window exactly `[3, 4, 5]`. -/
def c8Model : HwModel := HoltWinters { name := "w", Values := [1, 2, 3, 4, 5] }

/-- Model used to instantiate the too-short-window half of claim C8. -/
def c8wModel : HwModel := HoltWinters { name := "w", Values := [1, 2, 3, 4] }

/-- Human-interval model with three rows and an empty held-out window. -/
def c8HfModel : HfModel :=
  HumanForecast { times := [some 0, some 1, some 2], vals := [some 1, some 2, some 3] }

/-- Concrete series for the C9 witness. -/
def c9Model : HwModel :=
  HoltWinters { name := "w", Values := [5, 2, 8, 3, 7, 4, 9, 1, 6, 2] }

/-- The model c9Model is fitted to, extracted from the Fit computation. -/
def c9Fitted : HwModel :=
  match HwModel.Fit c9Model false (1/5) (2/5) (3/5) 2 [{ End := some 5 }] with
  | .ok m => m
  | _ => c9Model

/-- Concrete series for the C10 witness. -/
def c10Model : HwModel :=
  HoltWinters { name := "w", Values := [1, 3, 2, 4, 3, 5, 4, 6, 5, 7] }

/-- The model c10Model is fitted to, extracted from the Fit computation. -/
def c10Fitted : HwModel :=
  match HwModel.Fit c10Model false (1/2) (1/4) (3/4) 3 [{ End := some 6 }] with
  | .ok m => m
  | _ => c10Model

theorem goGet_eq_some (xs : List Value) (i : Nat) (h : i < xs.length) :
    goGet xs i = some (xs.getD i 0) := by
  simp [goGet, List.getElem?_eq_getElem h]

theorem goGet_length {xs : List Value} {i : Nat} {v : Value} (h : goGet xs i = some v) :
    i < xs.length := by
  by_contra hn
  rw [goGet, List.getElem?_eq_none (Nat.le_of_not_lt hn)] at h
  cases h

theorem goSlice_eq_some {xs : List Value} {a b : Nat} (hab : a ≤ b) (hb : b ≤ xs.length) :
    goSlice xs a b = some ((xs.drop a).take (b - a)) := by
  simp [goSlice, hab, hb]

theorem goSlice_some_len {xs : List Value} {a b l} (h : goSlice xs a b = some l) :
    l.length = b - a := by
  rw [goSlice] at h
  split at h
  · rename_i hc
    cases h
    simp [List.length_take, List.length_drop]
    omega
  · cases h

theorem goSlice_suffix (xs : List Value) (a : Nat) (h : a ≤ xs.length) :
    goSlice xs a xs.length = some (xs.drop a) := by
  rw [goSlice_eq_some h (Nat.le_refl _)]
  congr 1
  exact List.take_of_length_le (by simp)

theorem gomod_eq_some (a : Nat) {b : Nat} (h : 1 ≤ b) :
    gomod a b = some (a % b) := by
  simp [gomod]
  omega

theorem initialSeasonalComponents_some {y : List Value} {period : Nat} {l : List Value}
    (h : initialSeasonalComponents y period = some l) :
    l.length = period ∧ 1 ≤ period ∧ 2 * period ≤ y.length := by
  rw [initialSeasonalComponents] at h
  split at h
  · cases h
  · rename_i hc
    push_neg at hc
    simp only [Option.some.injEq] at h
    subst h
    simp only [List.length_map, List.length_range, true_and]
    omega

/-! ### Lemmas about the training recursion -/

theorem hwLoopGo_cancelled (α β γ : Value) (period : Nat) (y : List Value) (start i : Nat)
    (l : List Nat) (st trnd : Value) (seasonals : List Value) (hm : HwModel) :
    hwLoopGo true α β γ period y start (i :: l) st trnd seasonals hm =
      .error hm .cancelled := by
  simp [hwLoopGo]

theorem hwLoopGo_ok_ctx {ctx : Bool} {α β γ : Value} {period : Nat} {y : List Value}
    {start i : Nat} {l : List Nat} {st trnd : Value} {seasonals : List Value} {hm : HwModel}
    {res} (h : hwLoopGo ctx α β γ period y start (i :: l) st trnd seasonals hm = .ok res) :
    ctx = false := by
  cases ctx
  · rfl
  · rw [hwLoopGo_cancelled] at h
    cases h

theorem hwLoopGo_ok_state {ctx : Bool} {α β γ : Value} {period : Nat} {y : List Value}
    {start : Nat} (l : List Nat) :
    ∀ {st trnd : Value} {seasonals : List Value} {hm : HwModel}
      {st' trnd' : Value} {seasonals' : List Value} {hm' : HwModel},
    hwLoopGo ctx α β γ period y start l st trnd seasonals hm =
      .ok (st', trnd', seasonals', hm') →
    hm' = { hm with initialSmooth := hm'.initialSmooth } ∧
      seasonals'.length = seasonals.length := by
  induction l with
  | nil =>
    intro st trnd seasonals hm st' trnd' seasonals' hm' h
    simp only [hwLoopGo, GoRes.ok.injEq, Prod.mk.injEq] at h
    obtain ⟨-, -, h3, h4⟩ := h
    subst h3; subst h4
    exact ⟨rfl, rfl⟩
  | cons i rest ih =>
    intro st trnd seasonals hm st' trnd' seasonals' hm' h
    rcases Bool.eq_false_or_eq_true ctx with hctx | hctx
    · subst hctx
      rw [hwLoopGo_cancelled] at h
      cases h
    · subst hctx
      simp only [hwLoopGo] at h
      rw [if_neg Bool.false_ne_true] at h
      cases hget : goGet y i with
      | none => simp only [hget] at h; cases h
      | some xt =>
        simp only [hget] at h
        by_cases hi : i = start
        · rw [if_pos hi] at h
          obtain ⟨h1, h2⟩ := ih h
          exact ⟨h1, h2⟩
        · rw [if_neg hi] at h
          cases hmod : gomod i period with
          | none => simp only [hmod] at h; cases h
          | some im =>
            simp only [hmod] at h
            cases hs : goGet seasonals im with
            | none => simp only [hs] at h; cases h
            | some sIm =>
              simp only [hs] at h
              obtain ⟨h1, h2⟩ := ih h
              refine ⟨h1, ?_⟩
              rw [h2, List.length_set]

theorem hwLoopGo_not_start {ctx : Bool} {α β γ : Value} {period : Nat} {y : List Value}
    {start : Nat} (l : List Nat) (hl : start ∉ l) :
    ∀ {st trnd : Value} {seasonals : List Value} {hm : HwModel}
      {st' trnd' : Value} {seasonals' : List Value} {hm' : HwModel},
    hwLoopGo ctx α β γ period y start l st trnd seasonals hm =
      .ok (st', trnd', seasonals', hm') →
    hm'.initialSmooth = hm.initialSmooth := by
  induction l with
  | nil =>
    intro st trnd seasonals hm st' trnd' seasonals' hm' h
    simp only [hwLoopGo, GoRes.ok.injEq, Prod.mk.injEq] at h
    rw [h.2.2.2]
  | cons i rest ih =>
    intro st trnd seasonals hm st' trnd' seasonals' hm' h
    have hi : i ≠ start := fun hq => hl (hq ▸ List.mem_cons_self i rest)
    have hrest : start ∉ rest := fun hq => hl (List.mem_cons_of_mem i hq)
    rcases Bool.eq_false_or_eq_true ctx with hctx | hctx
    · subst hctx
      rw [hwLoopGo_cancelled] at h
      cases h
    · subst hctx
      simp only [hwLoopGo] at h
      rw [if_neg Bool.false_ne_true] at h
      cases hget : goGet y i with
      | none => simp only [hget] at h; cases h
      | some xt =>
        simp only [hget] at h
        rw [if_neg hi] at h
        cases hmod : gomod i period with
        | none => simp only [hmod] at h; cases h
        | some im =>
          simp only [hmod] at h
          cases hs : goGet seasonals im with
          | none => simp only [hs] at h; cases h
          | some sIm =>
            simp only [hs] at h
            exact ih hrest h

theorem hwLoopGo_seed {α β γ : Value} {period : Nat} {y : List Value} {start : Nat}
    {rest : List Nat} (hrest : start ∉ rest)
    {st trnd : Value} {seasonals : List Value} {hm : HwModel}
    {st' trnd' : Value} {seasonals' : List Value} {hm' : HwModel}
    (h : hwLoopGo false α β γ period y start (start :: rest) st trnd seasonals hm =
      .ok (st', trnd', seasonals', hm')) :
    ∃ xt, goGet y start = some xt ∧ hm'.initialSmooth = xt := by
  simp only [hwLoopGo] at h
  rw [if_neg Bool.false_ne_true] at h
  cases hget : goGet y start with
  | none => simp only [hget] at h; cases h
  | some xt =>
    simp only [hget] at h
    rw [if_pos trivial] at h
    refine ⟨xt, rfl, ?_⟩
    have hns := hwLoopGo_not_start rest hrest h
    simpa using hns

theorem hwLoopGo_append {ctx : Bool} {α β γ : Value} {period : Nat} {y : List Value}
    {start : Nat} (l₁ l₂ : List Nat) :
    ∀ (st trnd : Value) (seasonals : List Value) (hm : HwModel),
    hwLoopGo ctx α β γ period y start (l₁ ++ l₂) st trnd seasonals hm =
      match hwLoopGo ctx α β γ period y start l₁ st trnd seasonals hm with
      | .ok (st', trnd', seasonals', hm') =>
        hwLoopGo ctx α β γ period y start l₂ st' trnd' seasonals' hm'
      | .error s e => .error s e
      | .panics => .panics := by
  induction l₁ with
  | nil =>
    intro st trnd seasonals hm
    simp [hwLoopGo]
  | cons i rest ih =>
    intro st trnd seasonals hm
    rcases Bool.eq_false_or_eq_true ctx with hctx | hctx
    · subst hctx
      rw [List.cons_append, hwLoopGo_cancelled, hwLoopGo_cancelled]
    · subst hctx
      rw [List.cons_append]
      cases hget : goGet y i with
      | none => simp [hwLoopGo, hget]
      | some xt =>
        by_cases hi : i = start
        · subst hi
          simp only [hwLoopGo, hget, if_neg Bool.false_ne_true]
          rw [if_pos trivial, if_pos trivial]
          exact ih xt trnd seasonals { hm with initialSmooth := xt }
        · simp only [hwLoopGo, hget, if_neg hi, if_neg Bool.false_ne_true]
          cases hmod : gomod i period with
          | none => simp [hmod]
          | some im =>
            simp only [hmod]
            cases hs : goGet seasonals im with
            | none => simp [hs]
            | some sIm =>
              simp only [hs]
              exact ih _ _ _ hm

theorem hwSpec_len (α β γ : Value) (period : Nat) (y : List Value) (trnd0 : Value)
    (seas0 : List Value) :
    ∀ i, (hwSpec α β γ period y trnd0 seas0 i).2.2.length = seas0.length := by
  intro i
  induction i with
  | zero => rfl
  | succ k ih => simp [hwSpec, ih]

/-! ### Lemmas about the forecast loops -/

theorem hwFcastGo_predictLoop {period : Nat} {st trnd : Value} {seasonals : List Value}
    {hm : HwModel} : ∀ (cnt m : Nat) (acc : List Value),
    hwFcastGo false period st trnd seasonals hm cnt m acc =
      match hwPredictLoop false st trnd seasonals period cnt m acc with
      | .ok l => .ok l
      | .error e => .error hm e
      | .panics => .panics := by
  intro cnt
  induction cnt with
  | zero => intro m acc; simp [hwFcastGo, hwPredictLoop]
  | succ k ih =>
    intro m acc
    cases hmod : gomod (m - 1) period with
    | none => simp [hwFcastGo, hwPredictLoop, hmod]
    | some im =>
      cases hs : goGet seasonals im with
      | none => simp [hwFcastGo, hwPredictLoop, hmod, hs]
      | some sIm =>
        simp only [hwFcastGo, hwPredictLoop, if_neg Bool.false_ne_true, hmod, hs]
        exact ih (m + 1) (acc ++ [st + (m : Value) * trnd + sIm])

theorem hwPredictLoop_ok {st trnd : Value} {seasonals : List Value} {period : Nat}
    (hp : 1 ≤ period) (hlen : seasonals.length = period) :
    ∀ (cnt m : Nat) (acc : List Value),
    ∃ l, hwPredictLoop false st trnd seasonals period cnt m acc = .ok l ∧
      l.length = acc.length + cnt := by
  intro cnt
  induction cnt with
  | zero => intro m acc; exact ⟨acc, rfl, by simp⟩
  | succ k ih =>
    intro m acc
    have hidx : (m - 1) % period < seasonals.length := by
      rw [hlen]; exact Nat.mod_lt _ hp
    obtain ⟨l, hl, hle⟩ :=
      ih (m + 1) (acc ++ [st + (m : Value) * trnd + seasonals.getD ((m - 1) % period) 0])
    refine ⟨l, ?_, ?_⟩
    · simp only [hwPredictLoop, if_neg Bool.false_ne_true, gomod_eq_some _ hp,
        goGet_eq_some _ _ hidx]
      exact hl
    · rw [hle]
      simp only [List.length_append, List.length_cons, List.length_nil]
      omega

theorem hwPredictLoop_ok_len {st trnd : Value} {seasonals : List Value} {period : Nat}
    (hp : 1 ≤ period) (hlen : seasonals.length = period)
    {cnt m : Nat} {acc l : List Value}
    (h : hwPredictLoop false st trnd seasonals period cnt m acc = .ok l) :
    l.length = acc.length + cnt := by
  obtain ⟨l', hl', hle⟩ := hwPredictLoop_ok hp hlen cnt m acc
  rw [h] at hl'
  cases hl'
  exact hle

theorem hwLoopGo_eq_hwSpec (α β γ : Value) {period : Nat} (hp : 1 ≤ period)
    (y : List Value) {seas0 : List Value} (hlen : seas0.length = period)
    (trnd0 st0 : Value) (hm : HwModel) :
    ∀ n, 1 ≤ n → n ≤ y.length →
    hwLoopGo false α β γ period y 0 (List.range' 0 n) st0 trnd0 seas0 hm =
      .ok ((hwSpec α β γ period y trnd0 seas0 (n - 1)).1,
           (hwSpec α β γ period y trnd0 seas0 (n - 1)).2.1,
           (hwSpec α β γ period y trnd0 seas0 (n - 1)).2.2,
           { hm with initialSmooth := y.getD 0 0 }) := by
  intro n
  induction n with
  | zero => omega
  | succ m ihm =>
    intro h1 hny
    cases Nat.eq_zero_or_pos m with
    | inl hm0 =>
      subst hm0
      have h0 : 0 < y.length := by omega
      simp only [List.range'_one, hwLoopGo, goGet_eq_some y 0 h0,
        if_neg Bool.false_ne_true]
      rw [if_pos trivial]
      simp [hwLoopGo, hwSpec]
    | inr hmpos =>
      obtain ⟨k, rfl⟩ : ∃ k, m = k + 1 := ⟨m - 1, by omega⟩
      have ihm' := ihm (by omega) (by omega)
      rw [List.range'_1_concat, hwLoopGo_append, ihm']
      have hky : k + 1 < y.length := by omega
      have hidx : (k + 1) % period < (hwSpec α β γ period y trnd0 seas0 k).2.2.length := by
        rw [hwSpec_len, hlen]
        exact Nat.mod_lt _ hp
      simp only [Nat.zero_add, Nat.add_sub_cancel, hwLoopGo, goGet_eq_some y (k + 1) hky,
        if_neg Bool.false_ne_true, gomod_eq_some _ hp, goGet_eq_some _ _ hidx]
      rw [if_neg (by omega : ¬(k + 1 = 0))]
      simp [hwLoopGo, hwSpec]

/-! ### Inversion lemmas for the stages of Fit -/

theorem HwModel.FitValidate_ok {hm : HwModel} {α β γ : Value} {r : List GoRange}
    {start end_ : Nat} {hm1 : HwModel}
    (h : HwModel.FitValidate hm α β γ r = .ok (start, end_, hm1)) :
    (r.headD {}).Limits hm.data.Values.length = .ok (start, end_) ∧
    start + 1 ≤ end_ ∧
    ∃ trainData testData,
      goSlice hm.data.Values start (end_ + 1) = some trainData ∧
      goSlice hm.data.Values (end_ + 1) hm.data.Values.length = some testData ∧
      3 ≤ testData.length ∧
      hm1 = { hm with trainData := NewSeriesFloat64 "Train Data" trainData,
                      testData := { name := "Test Data", Values := testData },
                      alpha := α, beta := β, gamma := γ } := by
  rw [HwModel.FitValidate] at h
  cases hlim : (r.headD {}).Limits hm.data.Values.length with
  | error e =>
    rw [hlim] at h
    cases h
  | ok p =>
    obtain ⟨s0, e0⟩ := p
    rw [hlim] at h
    simp only at h
    split at h
    · cases h
    rename_i hnv
    split at h
    · cases h
    split at h
    · cases h
    split at h
    · cases h
    cases hsl1 : goSlice hm.data.Values s0 (e0 + 1) with
    | none => rw [hsl1] at h; cases h
    | some trainData =>
      rw [hsl1] at h
      simp only at h
      cases hsl2 : goSlice hm.data.Values (e0 + 1) hm.data.Values.length with
      | none => rw [hsl2] at h; cases h
      | some testData =>
        rw [hsl2] at h
        simp only at h
        split at h
        · cases h
        rename_i hlen3
        simp only [GoRes.ok.injEq, Prod.mk.injEq] at h
        obtain ⟨hs, he, hmEq⟩ := h
        subst hs; subst he
        refine ⟨rfl, by omega, trainData, testData, hsl1, hsl2, by omega, hmEq.symm⟩

theorem HwModel.FitTrain_ok {hm : HwModel} {ctx : Bool} {α β γ : Value} {period : Nat}
    {start end_ : Nat} {st trnd : Value} {seasonals2 : List Value} {hm2 : HwModel}
    (h : HwModel.FitTrain hm ctx α β γ period start end_ = .ok (st, trnd, seasonals2, hm2)) :
    ∃ y seas0 trnd0,
      goSlice hm.data.Values start (end_ + 1) = some y ∧
      initialSeasonalComponents y period = some seas0 ∧
      initialTrendEst y period = some trnd0 ∧
      hwLoopGo ctx α β γ period y start (List.range' start (end_ + 1 - start)) 0 trnd0 seas0
        { hm with initialSeasonalComps := seas0, initialTrend := trnd0 } =
        .ok (st, trnd, seasonals2, hm2) := by
  rw [HwModel.FitTrain] at h
  cases hy : goSlice hm.data.Values start (end_ + 1) with
  | none => rw [hy] at h; cases h
  | some y =>
    rw [hy] at h
    simp only at h
    cases hseas : initialSeasonalComponents y period with
    | none => rw [hseas] at h; cases h
    | some seas0 =>
      rw [hseas] at h
      simp only at h
      cases htr : initialTrendEst y period with
      | none => rw [htr] at h; cases h
      | some trnd0 =>
        rw [htr] at h
        simp only at h
        exact ⟨y, seas0, trnd0, rfl, hseas, htr, h⟩

theorem HwModel.FitFinish_ok {hm : HwModel} {ctx : Bool} {period : Nat} {end_ : Nat}
    {st trnd : Value} {seasonals : List Value} {hm' : HwModel}
    (h : HwModel.FitFinish hm ctx period end_ st trnd seasonals = .ok hm') :
    ∃ fcast mae sse rmse mape,
      hwFcastGo ctx period st trnd seasonals hm (hm.data.Values.length - (end_ + 1)) 1 []
        = .ok fcast ∧
      hm' = { hm with
        fcastData := { name := "Forecast Data", Values := fcast }
        smoothingLevel := st, trendLevel := trnd
        period := period, seasonalComps := seasonals
        sse := sse, mae := mae, rmse := rmse, mape := mape } := by
  rw [HwModel.FitFinish] at h
  cases hf : hwFcastGo ctx period st trnd seasonals hm
      (hm.data.Values.length - (end_ + 1)) 1 [] with
  | panics => rw [hf] at h; cases h
  | error s e => rw [hf] at h; cases h
  | ok fcast =>
    rw [hf] at h
    simp only at h
    cases hmae : MeanAbsoluteError ctx hm.testData { name := "Forecast Data", Values := fcast } with
    | error e => rw [hmae] at h; cases h
    | ok mae =>
      rw [hmae] at h
      simp only at h
      cases hsse : SumOfSquaredErrors ctx hm.testData { name := "Forecast Data", Values := fcast } with
      | error e => rw [hsse] at h; cases h
      | ok sse =>
        rw [hsse] at h
        simp only at h
        cases hrmse : RootMeanSquaredError ctx hm.testData { name := "Forecast Data", Values := fcast } with
        | error e => rw [hrmse] at h; cases h
        | ok rmse =>
          rw [hrmse] at h
          simp only at h
          cases hmape : MeanAbsolutePercentageError ctx hm.testData { name := "Forecast Data", Values := fcast } with
          | error e => rw [hmape] at h; cases h
          | ok mape =>
            rw [hmape] at h
            simp only [GoRes.ok.injEq] at h
            exact ⟨fcast, mae, sse, rmse, mape, rfl, h.symm⟩

/-- Inversion of a successful `Fit`: the cancellation signal was never set,
the stored state satisfies the structural invariants, and every persisted
field is determined by the validated range, the estimators and the recursion.
-/
theorem HwModel.Fit_ok_inv {hm : HwModel} {ctx : Bool} {α β γ : Value} {period : Nat}
    {r : List GoRange} {hm' : HwModel}
    (h : HwModel.Fit hm ctx α β γ period r = .ok hm') :
    ctx = false ∧ hm'.period = period ∧ 1 ≤ period ∧
    hm'.seasonalComps.length = period ∧
    3 ≤ hm'.testData.Values.length ∧
    hwPredictLoop false hm'.smoothingLevel hm'.trendLevel hm'.seasonalComps hm'.period
      hm'.testData.Values.length 1 [] = .ok hm'.fcastData.Values ∧
    ∃ start end_ y seas0 trnd0,
      (r.headD {}).Limits hm.data.Values.length = .ok (start, end_) ∧
      start + 1 ≤ end_ ∧
      goSlice hm.data.Values start (end_ + 1) = some y ∧
      initialSeasonalComponents y period = some seas0 ∧
      initialTrendEst y period = some trnd0 ∧
      hm'.initialSeasonalComps = seas0 ∧
      hm'.initialTrend = trnd0 ∧
      (∃ xt, goGet y start = some xt ∧ hm'.initialSmooth = xt) ∧
      hm'.testData.Values.length = hm.data.Values.length - (end_ + 1) ∧
      hm'.fcastData.Values.length = hm'.testData.Values.length ∧
      hm'.data = hm.data := by
  rw [HwModel.Fit] at h
  cases hv : HwModel.FitValidate hm α β γ r with
  | panics => rw [hv] at h; cases h
  | error s e => rw [hv] at h; cases h
  | ok p =>
    obtain ⟨start, end_, hm1⟩ := p
    rw [hv] at h
    simp only at h
    cases ht : HwModel.FitTrain hm1 ctx α β γ period start end_ with
    | panics => rw [ht] at h; cases h
    | error s e => rw [ht] at h; cases h
    | ok q =>
      obtain ⟨st, trnd, seas2, hm2⟩ := q
      rw [ht] at h
      simp only at h
      obtain ⟨hlim, hse, trainData, testData, hsl1, hsl2, hlen3, hm1eq⟩ :=
        HwModel.FitValidate_ok hv
      obtain ⟨y, seas0, trnd0, hy, hseas, htr, hloop⟩ := HwModel.FitTrain_ok ht
      obtain ⟨fcast, mae, sse, rmse, mape, hfc, hm'eq⟩ := HwModel.FitFinish_ok h
      obtain ⟨hseaslen, hp, hcyc⟩ := initialSeasonalComponents_some hseas
      have hcount : end_ + 1 - start = (end_ - start) + 1 := by omega
      rw [hcount, List.range'_succ] at hloop
      have hctx : ctx = false := hwLoopGo_ok_ctx hloop
      subst hctx
      have hrest : start ∉ List.range' (start + 1) (end_ - start) := by
        intro hmem
        rw [List.mem_range'_1] at hmem
        omega
      obtain ⟨xt, hxt, hsmooth⟩ := hwLoopGo_seed hrest hloop
      obtain ⟨hm2eq, hs2len⟩ := hwLoopGo_ok_state _ hloop
      have hdata1 : hm1.data = hm.data := by rw [hm1eq]
      have hdata2 : hm2.data = hm1.data := by rw [hm2eq]
      have htest2 : hm2.testData = hm1.testData := by rw [hm2eq]
      have htest1 : hm1.testData = { name := "Test Data", Values := testData } := by
        rw [hm1eq]
      have hinit2 : hm2.initialSeasonalComps = seas0 := by rw [hm2eq, hm1eq]
      have hitr2 : hm2.initialTrend = trnd0 := by rw [hm2eq, hm1eq]
      have htlen : testData.length = hm.data.Values.length - (end_ + 1) :=
        goSlice_some_len hsl2
      subst hm'eq
      have hs2p : seas2.length = period := by rw [hs2len, hseaslen]
      have hcnt : hm2.data.Values.length - (end_ + 1) = testData.length := by
        rw [hdata2, hdata1, htlen]
      rw [hcnt] at hfc
      rw [hwFcastGo_predictLoop] at hfc
      have hpl : hwPredictLoop false st trnd seas2 period testData.length 1 [] = .ok fcast := by
        cases hq : hwPredictLoop false st trnd seas2 period testData.length 1 [] with
        | ok l => rw [hq] at hfc; simp only at hfc; cases hfc; rfl
        | error e => rw [hq] at hfc; cases hfc
        | panics => rw [hq] at hfc; cases hfc
      have hflen : fcast.length = testData.length := by
        have := hwPredictLoop_ok_len hp hs2p hpl
        simpa using this
      rw [hdata1] at hy
      refine ⟨rfl, rfl, hp, hs2p, ?_, ?_, start, end_, y, seas0, trnd0, hlim, hse, hy,
        hseas, htr, hinit2, hitr2, ⟨xt, hxt, hsmooth⟩, ?_, ?_, ?_⟩
      · show 3 ≤ hm2.testData.Values.length
        rw [htest2, htest1]
        exact hlen3
      · show hwPredictLoop false st trnd seas2 period hm2.testData.Values.length 1 []
          = .ok fcast
        rw [htest2, htest1]
        exact hpl
      · show hm2.testData.Values.length = hm.data.Values.length - (end_ + 1)
        rw [htest2, htest1]
        exact htlen
      · show fcast.length = hm2.testData.Values.length
        rw [htest2, htest1]
        exact hflen
      · show hm2.data = hm.data
        rw [hdata2, hdata1]

/-! ### Which errors each stage can raise, and the state they leave -/

theorem HwModel.FitValidate_error {hm : HwModel} {α β γ : Value} {r : List GoRange}
    {s : HwModel} {e : Err} (h : HwModel.FitValidate hm α β γ r = .error s e) :
    e = .testMin3 ∨ s = hm := by
  rw [HwModel.FitValidate] at h
  cases hlim : (r.headD {}).Limits hm.data.Values.length with
  | error e0 =>
    rw [hlim] at h
    simp only [GoRes.error.injEq] at h
    exact Or.inr h.1.symm
  | ok p =>
    obtain ⟨s0, e0⟩ := p
    rw [hlim] at h
    simp only at h
    split at h
    · simp only [GoRes.error.injEq] at h
      exact Or.inr h.1.symm
    split at h
    · simp only [GoRes.error.injEq] at h
      exact Or.inr h.1.symm
    split at h
    · simp only [GoRes.error.injEq] at h
      exact Or.inr h.1.symm
    split at h
    · simp only [GoRes.error.injEq] at h
      exact Or.inr h.1.symm
    cases hsl1 : goSlice hm.data.Values s0 (e0 + 1) with
    | none => rw [hsl1] at h; cases h
    | some trainData =>
      rw [hsl1] at h
      simp only at h
      cases hsl2 : goSlice hm.data.Values (e0 + 1) hm.data.Values.length with
      | none => rw [hsl2] at h; cases h
      | some testData =>
        rw [hsl2] at h
        simp only at h
        split at h
        · simp only [GoRes.error.injEq] at h
          exact Or.inl h.2.symm
        · cases h

theorem hwLoopGo_error {ctx : Bool} {α β γ : Value} {period : Nat} {y : List Value}
    {start : Nat} (l : List Nat) :
    ∀ {st trnd : Value} {seasonals : List Value} {hm : HwModel} {s : HwModel} {e : Err},
    hwLoopGo ctx α β γ period y start l st trnd seasonals hm = .error s e →
    e = .cancelled := by
  induction l with
  | nil =>
    intro st trnd seasonals hm s e h
    cases h
  | cons i rest ih =>
    intro st trnd seasonals hm s e h
    rcases Bool.eq_false_or_eq_true ctx with hctx | hctx
    · subst hctx
      rw [hwLoopGo_cancelled] at h
      simp only [GoRes.error.injEq] at h
      exact h.2.symm
    · subst hctx
      simp only [hwLoopGo] at h
      rw [if_neg Bool.false_ne_true] at h
      cases hget : goGet y i with
      | none => simp only [hget] at h; cases h
      | some xt =>
        simp only [hget] at h
        by_cases hi : i = start
        · rw [if_pos hi] at h
          exact ih h
        · rw [if_neg hi] at h
          cases hmod : gomod i period with
          | none => simp only [hmod] at h; cases h
          | some im =>
            simp only [hmod] at h
            cases hs : goGet seasonals im with
            | none => simp only [hs] at h; cases h
            | some sIm =>
              simp only [hs] at h
              exact ih h

theorem HwModel.FitTrain_error {hm : HwModel} {ctx : Bool} {α β γ : Value} {period : Nat}
    {start end_ : Nat} {s : HwModel} {e : Err}
    (h : HwModel.FitTrain hm ctx α β γ period start end_ = .error s e) :
    e = .cancelled := by
  rw [HwModel.FitTrain] at h
  cases hy : goSlice hm.data.Values start (end_ + 1) with
  | none => rw [hy] at h; cases h
  | some y =>
    rw [hy] at h
    simp only at h
    cases hseas : initialSeasonalComponents y period with
    | none => rw [hseas] at h; cases h
    | some seas0 =>
      rw [hseas] at h
      simp only at h
      cases htr : initialTrendEst y period with
      | none => rw [htr] at h; cases h
      | some trnd0 =>
        rw [htr] at h
        simp only at h
        exact hwLoopGo_error _ h

theorem hwFcastGo_error {ctx : Bool} {period : Nat} {st trnd : Value}
    {seasonals : List Value} {hm : HwModel} :
    ∀ {cnt m : Nat} {acc : List Value} {s : HwModel} {e : Err},
    hwFcastGo ctx period st trnd seasonals hm cnt m acc = .error s e →
    e = .cancelled := by
  intro cnt
  induction cnt with
  | zero => intro m acc s e h; cases h
  | succ k ih =>
    intro m acc s e h
    rcases Bool.eq_false_or_eq_true ctx with hctx | hctx
    · subst hctx
      simp only [hwFcastGo] at h
      rw [if_pos trivial] at h
      cases h
      rfl
    · subst hctx
      simp only [hwFcastGo] at h
      rw [if_neg Bool.false_ne_true] at h
      cases hmod : gomod (m - 1) period with
      | none => simp only [hmod] at h; cases h
      | some im =>
        simp only [hmod] at h
        cases hs : goGet seasonals im with
        | none => simp only [hs] at h; cases h
        | some sIm =>
          simp only [hs] at h
          exact ih h

theorem MeanAbsoluteError_error {ctx : Bool} {a f : SeriesFloat64} {e : Err}
    (h : MeanAbsoluteError ctx a f = .error e) : e = .lenMismatch ∨ e = .cancelled := by
  rw [MeanAbsoluteError] at h
  split at h
  · cases h; exact Or.inl rfl
  split at h
  · cases h; exact Or.inr rfl
  · cases h

theorem SumOfSquaredErrors_error {ctx : Bool} {a f : SeriesFloat64} {e : Err}
    (h : SumOfSquaredErrors ctx a f = .error e) : e = .lenMismatch ∨ e = .cancelled := by
  rw [SumOfSquaredErrors] at h
  split at h
  · cases h; exact Or.inl rfl
  split at h
  · cases h; exact Or.inr rfl
  · cases h

theorem RootMeanSquaredError_error {ctx : Bool} {a f : SeriesFloat64} {e : Err}
    (h : RootMeanSquaredError ctx a f = .error e) : e = .lenMismatch ∨ e = .cancelled := by
  rw [RootMeanSquaredError] at h
  split at h
  · cases h; exact Or.inl rfl
  split at h
  · cases h; exact Or.inr rfl
  · cases h

theorem MeanAbsolutePercentageError_error {ctx : Bool} {a f : SeriesFloat64} {e : Err}
    (h : MeanAbsolutePercentageError ctx a f = .error e) :
    e = .lenMismatch ∨ e = .cancelled := by
  rw [MeanAbsolutePercentageError] at h
  split at h
  · cases h; exact Or.inl rfl
  split at h
  · cases h; exact Or.inr rfl
  · cases h

theorem HwModel.FitFinish_error {hm : HwModel} {ctx : Bool} {period : Nat} {end_ : Nat}
    {st trnd : Value} {seasonals : List Value} {s : HwModel} {e : Err}
    (h : HwModel.FitFinish hm ctx period end_ st trnd seasonals = .error s e) :
    e = .cancelled ∨ e = .lenMismatch := by
  rw [HwModel.FitFinish] at h
  cases hf : hwFcastGo ctx period st trnd seasonals hm
      (hm.data.Values.length - (end_ + 1)) 1 [] with
  | panics => rw [hf] at h; cases h
  | error s0 e0 =>
    rw [hf] at h
    simp only [GoRes.error.injEq] at h
    exact Or.inl (h.2 ▸ hwFcastGo_error hf)
  | ok fcast =>
    rw [hf] at h
    simp only at h
    cases hmae : MeanAbsoluteError ctx hm.testData { name := "Forecast Data", Values := fcast } with
    | error e0 =>
      rw [hmae] at h
      simp only [GoRes.error.injEq] at h
      cases h.2
      exact (MeanAbsoluteError_error hmae).symm
    | ok mae =>
      rw [hmae] at h
      simp only at h
      cases hsse : SumOfSquaredErrors ctx hm.testData { name := "Forecast Data", Values := fcast } with
      | error e0 =>
        rw [hsse] at h
        simp only [GoRes.error.injEq] at h
        cases h.2
        exact (SumOfSquaredErrors_error hsse).symm
      | ok sse =>
        rw [hsse] at h
        simp only at h
        cases hrmse : RootMeanSquaredError ctx hm.testData { name := "Forecast Data", Values := fcast } with
        | error e0 =>
          rw [hrmse] at h
          simp only [GoRes.error.injEq] at h
          cases h.2
          exact (RootMeanSquaredError_error hrmse).symm
        | ok rmse =>
          rw [hrmse] at h
          simp only at h
          cases hmape : MeanAbsolutePercentageError ctx hm.testData { name := "Forecast Data", Values := fcast } with
          | error e0 =>
            rw [hmape] at h
            simp only [GoRes.error.injEq] at h
            cases h.2
            exact (MeanAbsolutePercentageError_error hmape).symm
          | ok mape =>
            rw [hmape] at h
            cases h

/-! ### Claim theorems -/

/-- Claim C1 counterexample: a Fit call that fails the held-out-window
validation (returning the minimum-3-test-observations error) has already
assigned the `trainData` field, so the model is not left exactly as it was
before the call. -/
theorem claim_C1_counterexample :
    HwModel.Fit c1Before false (1/2) (1/2) (1/2) 1 [] = .error c1After .testMin3 ∧
    c1After ≠ c1Before := by
  constructor
  · decide
  · decide

/-- Claim C1 (amended): a Fit call that fails one of the validations that
precede the first field assignment — range resolution, the empty-range check,
or the `[0,1]` checks on the three smoothing constants — leaves every field of
the model exactly as it was before the call.  (Errors raised at or after the
held-out-window check, including cancellation observed inside the loop, can
leave earlier field assignments in place, as the counterexample shows.) -/
theorem claim_C1_amended (hm : HwModel) (ctx : Bool) (α β γ : Value) (period : Nat)
    (r : List GoRange) (s : HwModel) (e : Err)
    (h : HwModel.Fit hm ctx α β γ period r = .error s e)
    (he : e = .invalidRange ∨ e = .noValues ∨ e = .alphaRange ∨ e = .betaRange ∨
      e = .gammaRange) :
    s = hm := by
  rw [HwModel.Fit] at h
  cases hv : HwModel.FitValidate hm α β γ r with
  | panics => rw [hv] at h; cases h
  | error s0 e0 =>
    rw [hv] at h
    simp only at h
    cases h
    rcases HwModel.FitValidate_error hv with h3 | h3
    · subst h3
      rcases he with h4 | h4 | h4 | h4 | h4 <;> cases h4
    · exact h3
  | ok p =>
    obtain ⟨start, end_, hm1⟩ := p
    rw [hv] at h
    simp only at h
    cases ht : HwModel.FitTrain hm1 ctx α β γ period start end_ with
    | panics => rw [ht] at h; cases h
    | error s0 e0 =>
      rw [ht] at h
      simp only at h
      cases h
      have h3 := HwModel.FitTrain_error ht
      subst h3
      rcases he with h4 | h4 | h4 | h4 | h4 <;> cases h4
    | ok q =>
      obtain ⟨st, trnd, seas2, hm2⟩ := q
      rw [ht] at h
      simp only at h
      rcases HwModel.FitFinish_error h with h3 | h3 <;>
        (subst h3; rcases he with h4 | h4 | h4 | h4 | h4 <;> cases h4)

theorem claim_C1_amended_witness :
    HwModel.Fit c1wModel false 2 0 0 1 [] = .error c1wModel .alphaRange ∧
    c1wModel = c1wModel := by
  have hfit : HwModel.Fit c1wModel false 2 0 0 1 [] = .error c1wModel .alphaRange := by
    decide
  exact ⟨hfit, claim_C1_amended c1wModel false 2 0 0 1 [] c1wModel .alphaRange hfit
    (Or.inr (Or.inr (Or.inl rfl)))⟩

/-- Claim C2 (code bug): with valid smoothing constants in `[0,1]`,
`period = 1`, a training slice of length `3 ≥ 2*period` and a held-out window
of length `4 ≥ 3`, a Fit over the training range starting at index 1 reaches
the out-of-bounds branch of the embedded recursion (a Go index-out-of-range
panic) instead of succeeding: the source slices `y = data[start:end+1]` but
indexes it with the absolute loop index `i ∈ [start, end]`. -/
theorem claim_C2_code_bug :
    HwModel.Fit c2Model false (1/2) (1/2) (1/2) 1
      [{ Start := some 1, End := some 3 }] = .panics := by
  decide

/-- Claim C3 (code bug): Predict on a never-fitted model with horizon 1 and a
non-cancelled context does not return an explicit error: it reaches the
runtime-panic branch of the embedding, because the zero-valued model has
`period = 0` and the forecast formula computes `(m-1) % period` (an integer
modulo by zero, a Go panic) against an empty seasonal array. -/
theorem claim_C3_code_bug :
    HwModel.Predict c3Model false 1 = .panics := by
  decide

/-- Claim C4: for a Fit whose training range starts at index 0 (list of loop
indices `0, 1, ..., n-1` with valid parameters and a seasonal array of
`period` entries), the embedded recursion of Fit agrees exactly with the
spec's recurrence `hwSpec`: at `i = 0` the level is seeded to `y[0]` and
recorded in the receiver's `initialSmooth`; for every later `i` the new level
is `α*(y[i] - seasonal[i % period]) + (1-α)*(level + trend)`, the new trend is
`β*(newLevel - prevLevel) + (1-β)*trend`, and slot `i % period` of the
seasonal array becomes `γ*(y[i] - prevLevel - prevTrend) +
(1-γ)*seasonal[i % period]`. -/
theorem claim_C4 (α β γ : Value) (period : Nat) (y : List Value) (trnd0 st0 : Value)
    (seas0 : List Value) (hm : HwModel) (n : Nat)
    (hp : 1 ≤ period) (hlen : seas0.length = period) (hn1 : 1 ≤ n)
    (hny : n ≤ y.length) :
    hwLoopGo false α β γ period y 0 (List.range' 0 n) st0 trnd0 seas0 hm =
      .ok ((hwSpec α β γ period y trnd0 seas0 (n - 1)).1,
           (hwSpec α β γ period y trnd0 seas0 (n - 1)).2.1,
           (hwSpec α β γ period y trnd0 seas0 (n - 1)).2.2,
           { hm with initialSmooth := y.getD 0 0 }) :=
  hwLoopGo_eq_hwSpec α β γ hp y hlen trnd0 st0 hm n hn1 hny

theorem claim_C4_witness :
    hwLoopGo false (1/2) (1/3) (1/4) 2 [1, 2, 3, 4] 0 (List.range' 0 4) 0 (5/2)
      [1/2, -1/2] (HoltWinters (NewSeriesFloat64 "w" [1, 2, 3, 4])) =
      .ok ((hwSpec (1/2) (1/3) (1/4) 2 [1, 2, 3, 4] (5/2) [1/2, -1/2] 3).1,
           (hwSpec (1/2) (1/3) (1/4) 2 [1, 2, 3, 4] (5/2) [1/2, -1/2] 3).2.1,
           (hwSpec (1/2) (1/3) (1/4) 2 [1, 2, 3, 4] (5/2) [1/2, -1/2] 3).2.2,
           { HoltWinters (NewSeriesFloat64 "w" [1, 2, 3, 4]) with
             initialSmooth := ([1, 2, 3, 4] : List Value).getD 0 0 }) :=
  claim_C4 (1/2) (1/3) (1/4) 2 [1, 2, 3, 4] (5/2) 0 [1/2, -1/2]
    (HoltWinters (NewSeriesFloat64 "w" [1, 2, 3, 4])) 4
    (by decide) (by decide) (by decide) (by decide)

/-- Claim C5: on any model produced by a successful Fit (whose stored period
is the argument `period ≥ 1`), Predict under a non-cancelled context returns
exactly `h` values for every horizon `h > 0`, and fails with the
horizon-validation error, producing no values, for every `h ≤ 0`. -/
theorem claim_C5 (hm : HwModel) (ctx : Bool) (α β γ : Value) (period : Nat)
    (r : List GoRange) (hm' : HwModel)
    (hfit : HwModel.Fit hm ctx α β γ period r = .ok hm') :
    (∀ h : Int, 0 < h →
      ∃ s, HwModel.Predict hm' false h = .ok s ∧ s.Values.length = h.toNat) ∧
    (∀ h : Int, h ≤ 0 → HwModel.Predict hm' false h = .error .hMin) := by
  obtain ⟨-, hper, hp, hslen, -, -, -⟩ := HwModel.Fit_ok_inv hfit
  have hp' : 1 ≤ hm'.period := by rw [hper]; exact hp
  have hsl' : hm'.seasonalComps.length = hm'.period := by rw [hslen, hper]
  constructor
  · intro h hpos
    obtain ⟨l, hl, hle⟩ := hwPredictLoop_ok hp' hsl' h.toNat 1 []
    refine ⟨{ name := "Prediction", Values := l }, ?_, ?_⟩
    · rw [HwModel.Predict, if_neg (by omega : ¬ h ≤ 0), hl]
    · simpa using hle
  · intro h hneg
    rw [HwModel.Predict, if_pos hneg]

theorem claim_C5_witness :
    (∃ s, HwModel.Predict c5Fitted false 2 = .ok s ∧ s.Values.length = (2 : Int).toNat) ∧
    HwModel.Predict c5Fitted false 0 = .error .hMin := by
  have hfit : HwModel.Fit c5Model false 0 0 0 1 [{ End := some 1 }] = .ok c5Fitted := by
    decide
  have hcl := claim_C5 c5Model false 0 0 0 1 [{ End := some 1 }] c5Fitted hfit
  exact ⟨hcl.1 2 (by decide), hcl.2 0 (by decide)⟩

/-- Claim C6: on any model produced by a successful Fit, calling Predict under
a non-cancelled context with horizon equal to the held-out window's length
returns exactly the stored test-window forecast `fcastData`, element for
element: both apply `level + m*trend + seasonal[(m-1) % period]` for
`m = 1, ..., n` to the same final fitted state. -/
theorem claim_C6 (hm : HwModel) (ctx : Bool) (α β γ : Value) (period : Nat)
    (r : List GoRange) (hm' : HwModel)
    (hfit : HwModel.Fit hm ctx α β γ period r = .ok hm') :
    HwModel.Predict hm' false (hm'.testData.Values.length : Int) =
      .ok { name := "Prediction", Values := hm'.fcastData.Values } := by
  obtain ⟨-, -, -, -, htlen3, hpl, -⟩ := HwModel.Fit_ok_inv hfit
  have hpos : ¬ ((hm'.testData.Values.length : Int) ≤ 0) := by
    have : (3 : Int) ≤ (hm'.testData.Values.length : Int) := by exact_mod_cast htlen3
    omega
  rw [HwModel.Predict, if_neg hpos, Int.toNat_natCast, hpl]

theorem claim_C6_witness :
    HwModel.Predict c6Fitted false (c6Fitted.testData.Values.length : Int) =
      .ok { name := "Prediction", Values := c6Fitted.fcastData.Values } :=
  claim_C6 c6Model false (1/4) (1/3) (1/2) 2 [{ End := some 5 }] c6Fitted (by decide)

/-- Claim C7: with a valid non-empty training range, Fit returns the matching
parameter-validation error (leaving the model untouched) whenever any of the
three smoothing constants is strictly below 0 or strictly above 1; and the
boundary values 0 and 1 pass the validation — two complete Fit calls using
all-0 and all-1 smoothing constants on otherwise-valid input succeed. -/
theorem claim_C7 :
    (∀ (hm : HwModel) (ctx : Bool) (α β γ : Value) (period : Nat) (r : List GoRange)
      (start end_ : Nat),
      (r.headD {}).Limits hm.data.Values.length = .ok (start, end_) →
      start + 1 ≤ end_ →
      (α < 0 ∨ 1 < α ∨ β < 0 ∨ 1 < β ∨ γ < 0 ∨ 1 < γ) →
      ∃ e, HwModel.Fit hm ctx α β γ period r = .error hm e ∧
        (e = .alphaRange ∨ e = .betaRange ∨ e = .gammaRange)) ∧
    (HwModel.Fit c7Model false 0 0 0 1 [{ End := some 1 }]).isOk = true ∧
    (HwModel.Fit c7Model false 1 1 1 1 [{ End := some 1 }]).isOk = true := by
  refine ⟨?_, by decide, by decide⟩
  intro hm ctx α β γ period r start end_ hlim hse hout
  rw [HwModel.Fit, HwModel.FitValidate, hlim]
  simp only
  rw [if_neg (show ¬ end_ < start + 1 by omega)]
  by_cases hα : α < 0 ∨ 1 < α
  · rw [if_pos hα]
    exact ⟨.alphaRange, rfl, Or.inl rfl⟩
  · rw [if_neg hα]
    by_cases hβ : β < 0 ∨ 1 < β
    · rw [if_pos hβ]
      exact ⟨.betaRange, rfl, Or.inr (Or.inl rfl)⟩
    · rw [if_neg hβ]
      have hγ : γ < 0 ∨ 1 < γ := by tauto
      rw [if_pos hγ]
      exact ⟨.gammaRange, rfl, Or.inr (Or.inr rfl)⟩

theorem claim_C7_witness :
    ∃ e, HwModel.Fit c7wModel false 2 0 0 1 [] = .error c7wModel e ∧
      (e = .alphaRange ∨ e = .betaRange ∨ e = .gammaRange) :=
  claim_C7.1 c7wModel false 2 0 0 1 [] 0 2 rfl (by omega)
    (Or.inr (Or.inl (by norm_num)))

theorem GoRange.Limits_ok {r : GoRange} {n start end_ : Nat}
    (h : r.Limits n = .ok (start, end_)) : start < n ∧ end_ < n := by
  rw [GoRange.Limits] at h
  split at h
  · cases h
  · simp only at h
    split at h
    · rename_i hc
      cases h
      exact hc
    · cases h

/-- Claim C8: with otherwise-valid parameters, the Holt-Winters Fit fails with
the minimum-3-test-observations error whenever fewer than 3 observations lie
strictly after the training range's end, and passes that check at exactly 3
(a complete call with a 3-observation held-out window succeeds); the
human-interval variant's Fit fails whenever its held-out window has fewer
than 2 rows. -/
theorem claim_C8 :
    (∀ (hm : HwModel) (ctx : Bool) (α β γ : Value) (period : Nat) (r : List GoRange)
      (start end_ : Nat),
      (r.headD {}).Limits hm.data.Values.length = .ok (start, end_) →
      start + 1 ≤ end_ →
      0 ≤ α → α ≤ 1 → 0 ≤ β → β ≤ 1 → 0 ≤ γ → γ ≤ 1 →
      hm.data.Values.length - (end_ + 1) < 3 →
      ∃ s, HwModel.Fit hm ctx α β γ period r = .error s .testMin3) ∧
    (HwModel.Fit c8Model false 0 0 0 1 [{ End := some 1 }]).isOk = true ∧
    (∀ (hf : HfModel) (ctx : Bool) (α β : Value) (r : GoRange)
      (opts : List HumanForecastOptions) (start end_ : Nat),
      r.Limits hf.data.NRows = .ok (start, end_) →
      start + 1 ≤ end_ →
      0 ≤ α → α ≤ 1 → 0 ≤ β → β ≤ 1 →
      hf.data.NRows - (end_ + 1) < 2 →
      (HfModel.Fit hf ctx α β r opts).isError = true) := by
  refine ⟨?_, by decide, ?_⟩
  · intro hm ctx α β γ period r start end_ hlim hse hα0 hα1 hβ0 hβ1 hγ0 hγ1 hshort
    obtain ⟨hsn, hen⟩ := GoRange.Limits_ok hlim
    rw [HwModel.Fit, HwModel.FitValidate, hlim]
    simp only
    rw [if_neg (show ¬ end_ < start + 1 by omega)]
    rw [if_neg (show ¬ (α < 0 ∨ 1 < α) by push_neg; exact ⟨hα0, hα1⟩)]
    rw [if_neg (show ¬ (β < 0 ∨ 1 < β) by push_neg; exact ⟨hβ0, hβ1⟩)]
    rw [if_neg (show ¬ (γ < 0 ∨ 1 < γ) by push_neg; exact ⟨hγ0, hγ1⟩)]
    rw [goSlice_eq_some (by omega) (by omega)]
    simp only
    rw [goSlice_suffix hm.data.Values (end_ + 1) (by omega)]
    simp only
    rw [if_pos (show (hm.data.Values.drop (end_ + 1)).length < 3 by
      rw [List.length_drop]; omega)]
    exact ⟨_, rfl⟩
  · intro hf ctx α β r opts start end_ hlim hse hα0 hα1 hβ0 hβ1 hshort
    rw [HfModel.Fit.eq_def]
    simp only
    rw [hlim]
    simp only
    rw [if_neg (show ¬ end_ < start + 1 by omega)]
    rw [if_neg (show ¬ (α < 0 ∨ 1 < α) by push_neg; exact ⟨hα0, hα1⟩)]
    rw [if_neg (show ¬ (β < 0 ∨ 1 < β) by push_neg; exact ⟨hβ0, hβ1⟩)]
    cases hgd1 : getDateTime (DataFrame.copyRange hf.data start end_) start with
    | none => rfl
    | some startDate =>
      simp only [hgd1]
      cases hgd2 : getDateTime (DataFrame.copyRange hf.data start end_) end_ with
      | none => rfl
      | some endDate =>
        simp only [hgd2]
        rw [if_pos (show (DataFrame.copyFrom hf.data (end_ + 1)).NRows < 2 by
          simp only [DataFrame.copyFrom, DataFrame.NRows, List.length_drop]
          exact hshort)]
        rfl

theorem claim_C8_witness :
    (∃ s, HwModel.Fit c8wModel false 0 0 0 1 [] = .error s .testMin3) ∧
    (HfModel.Fit c8HfModel false 0 0 {} []).isError = true :=
  ⟨claim_C8.1 c8wModel false 0 0 0 1 [] 0 3 rfl (by omega) le_rfl zero_le_one le_rfl
    zero_le_one le_rfl zero_le_one (by decide),
   claim_C8.2.2 c8HfModel false 0 0 {} [] 0 2 rfl (by omega) le_rfl zero_le_one le_rfl
    zero_le_one (by decide)⟩

/-- Claim C9: after every successful Fit, the recorded pre-recursion starting
values still equal the values derived before the recursive loop ran:
`initialSeasonalComps` is exactly the estimator's seasonal array (the
per-step updates of the working seasonal array never alter it),
`initialTrend` is exactly the estimator's trend, and `initialSmooth` is the
training value the level was seeded from.  `Predict` and `Summary` are
embedded as pure functions of the model — mirroring a source in which neither
contains a single field write — so no later call can change these fields. -/
theorem claim_C9 (hm : HwModel) (ctx : Bool) (α β γ : Value) (period : Nat)
    (r : List GoRange) (hm' : HwModel)
    (hfit : HwModel.Fit hm ctx α β γ period r = .ok hm') :
    ∃ start end_ y seas0 trnd0 xt,
      (r.headD {}).Limits hm.data.Values.length = .ok (start, end_) ∧
      goSlice hm.data.Values start (end_ + 1) = some y ∧
      initialSeasonalComponents y period = some seas0 ∧
      initialTrendEst y period = some trnd0 ∧
      goGet y start = some xt ∧
      hm'.initialSeasonalComps = seas0 ∧
      hm'.initialTrend = trnd0 ∧
      hm'.initialSmooth = xt := by
  obtain ⟨-, -, -, -, -, -, start, end_, y, seas0, trnd0, hlim, -, hy, hseas, htr,
    hisc, hitr, ⟨xt, hxt, hsm⟩, -, -, -⟩ := HwModel.Fit_ok_inv hfit
  exact ⟨start, end_, y, seas0, trnd0, xt, hlim, hy, hseas, htr, hxt, hisc, hitr, hsm⟩

theorem claim_C9_witness :
    ∃ start end_ y seas0 trnd0 xt,
      (([{ End := some 5 }] : List GoRange).headD {}).Limits
        c9Model.data.Values.length = .ok (start, end_) ∧
      goSlice c9Model.data.Values start (end_ + 1) = some y ∧
      initialSeasonalComponents y 2 = some seas0 ∧
      initialTrendEst y 2 = some trnd0 ∧
      goGet y start = some xt ∧
      c9Fitted.initialSeasonalComps = seas0 ∧
      c9Fitted.initialTrend = trnd0 ∧
      c9Fitted.initialSmooth = xt :=
  claim_C9 c9Model false (1/5) (2/5) (3/5) 2 [{ End := some 5 }] c9Fitted (by decide)

/-- Claim C10: after every successful Fit over a resolved training range
`[start, end]`, the stored test-window forecast has exactly as many entries as
the stored test window, namely one per series index strictly after `end`, so
the equal-length precondition of the accuracy metrics always holds. -/
theorem claim_C10 (hm : HwModel) (ctx : Bool) (α β γ : Value) (period : Nat)
    (r : List GoRange) (hm' : HwModel)
    (hfit : HwModel.Fit hm ctx α β γ period r = .ok hm') :
    ∃ start end_,
      (r.headD {}).Limits hm.data.Values.length = .ok (start, end_) ∧
      hm'.fcastData.Values.length = hm'.testData.Values.length ∧
      hm'.testData.Values.length = hm.data.Values.length - (end_ + 1) := by
  obtain ⟨-, -, -, -, -, -, start, end_, y, seas0, trnd0, hlim, -, -, -, -,
    -, -, -, htl, hfl, -⟩ := HwModel.Fit_ok_inv hfit
  exact ⟨start, end_, hlim, hfl, htl⟩

theorem claim_C10_witness :
    ∃ start end_,
      (([{ End := some 6 }] : List GoRange).headD {}).Limits
        c10Model.data.Values.length = .ok (start, end_) ∧
      c10Fitted.fcastData.Values.length = c10Fitted.testData.Values.length ∧
      c10Fitted.testData.Values.length = c10Model.data.Values.length - (end_ + 1) :=
  claim_C10 c10Model false (1/2) (1/4) (3/4) 3 [{ End := some 6 }] c10Fitted (by decide)
